import Mathlib

/-!
Verification of the mask-generation and try-on orchestration core of the
virtual try-on repository (backend/utils/masking.py, backend/utils/inference.py,
backend/utils/image_processor.py, config.py).

Modelling conventions of the shallow embedding:
- numpy uint8 rasters are total functions from row/column naturals to ℕ,
  together with explicit height/width; every operation only reads pixels
  inside the grid, exactly like the arrays in the source.
- OpenCV calls are embedded with their documented semantics: `cv2.rectangle`
  with thickness -1 fills the inclusive corner rectangle clipped to the image;
  `cv2.dilate`/`cv2.erode` take max/min over the structuring-element taps with
  constant borders that do not contribute (the default morphological border
  value); `cv2.getStructuringElement(MORPH_ELLIPSE,(2r+1,2r+1))` has row
  half-widths round(sqrt(r*r - dy*dy)); `cv2.GaussianBlur` with kernel (5,5)
  and sigma 0 on uint8 data uses the fixed binomial kernel 1-4-6-4-1 over 16
  in fixed point (coefficients scaled by 256, result shifted by 16 bits with
  rounding) and BORDER_REFLECT_101 index reflection.
- Python float expressions such as int(height * 0.15) are modelled by exact
  rational arithmetic (15 * h / 100 with ℕ-floor division); for the constants
  of the region table the double rounding error is far below the distance of
  the products to the next integer, so the two agree on all realistic sizes.
- Python str.lower is modelled characterwise with Char.toLower (all
  table keys are ASCII).
- Wall-clock timing fields of result records are not modelled.
-/

set_option maxRecDepth 40000

namespace VTO

/-- Value of config.MASK_DILATION_KERNEL. -/
def MASK_DILATION_KERNEL : Nat := 15

/-- Width and height of config.MASK_BLUR_SIZE, the (5,5) Gaussian kernel. -/
def MASK_BLUR_SIZE : Nat := 5

/-- Value of config.MAX_IMAGE_SIZE, a (width, height) bound. -/
def MAX_IMAGE_SIZE : Nat × Nat := (768, 1024)

/-- Value of config.GARMENT_TYPES. -/
def GARMENT_TYPES : List String :=
  ["shirt", "t-shirt", "blouse", "dress", "pants", "jeans", "skirt", "jacket",
   "coat", "sweater", "hoodie", "hat", "cap", "shoes", "glasses", "sunglasses",
   "scarf", "tie"]

/-- An in-memory image, reduced to the data the embedded operations read:
its pixel dimensions (PIL Image.size is (width, height)). -/
structure PImage where
  width : Nat
  height : Nat
  deriving DecidableEq, Repr

/-- A single-channel uint8 raster with explicit dimensions, as produced by
np.zeros((height, width), dtype=np.uint8) and the cv2 operations on it. -/
structure Mask where
  height : Nat
  width : Nat
  pix : Nat → Nat → Nat

/-- Rounded square root, round(sqrt n) for a natural n: this is the value
the double-precision expression saturate_cast(c * sqrt((r*r-dy*dy)/(r*r)))
takes inside cv2.getStructuringElement for c = r, since sqrt of a natural
below 2^52 is never exactly halfway between integers.  Computed as the
number of naturals k with (k + 1/2)^2 < n, that is k*k + k < n, which is
the least k with (k + 1/2)^2 ≥ n, the round-to-nearest of sqrt n. -/
def roundSqrt (n : Nat) : Nat :=
  ((List.range n).filter (fun k => k * k + k < n)).length

/-- Offsets (dy, dx) of the nonzero cells of the elliptical structuring
element cv2.getStructuringElement(cv2.MORPH_ELLIPSE, (2*r+1, 2*r+1)),
relative to the centered anchor: row dy has half-width round(sqrt(r*r-dy*dy)). -/
def ellKernel (r : Nat) : List (Int × Int) :=
  (List.range (2 * r + 1)).flatMap (fun i =>
    let dy : Int := (i : Int) - (r : Int)
    let d : Nat := roundSqrt ((r * r : Int) - dy * dy).toNat
    (List.range (2 * d + 1)).map (fun j => (dy, (j : Int) - (d : Int))))

/-- Structuring element of the dilation in create_garment_region_mask:
a MASK_DILATION_KERNEL-sized ellipse (radius 7 around the anchor). -/
def kernel15 : List (Int × Int) := ellKernel (MASK_DILATION_KERNEL / 2)

/-- Structuring element used by refine_mask: the (5,5) ellipse. -/
def kernel5 : List (Int × Int) := ellKernel 2

/-- Read a pixel treating everything outside the h-by-w grid as 0: the
constant border that does not contribute to a dilation maximum. -/
def tap0 (h w : Nat) (m : Nat → Nat → Nat) (y x : Int) : Nat :=
  if 0 ≤ y ∧ y < (h : Int) ∧ 0 ≤ x ∧ x < (w : Int) then m y.toNat x.toNat else 0

/-- Read a pixel treating everything outside the h-by-w grid as 255: the
constant border that does not contribute to an erosion minimum. -/
def tap255 (h w : Nat) (m : Nat → Nat → Nat) (y x : Int) : Nat :=
  if 0 ≤ y ∧ y < (h : Int) ∧ 0 ≤ x ∧ x < (w : Int) then m y.toNat x.toNat else 255

/-- cv2.dilate with one iteration: pixelwise maximum over the structuring
element, border values not contributing. -/
def dilate (h w : Nat) (ker : List (Int × Int)) (m : Nat → Nat → Nat) :
    Nat → Nat → Nat :=
  fun y x =>
    ker.foldr (fun d acc => max (tap0 h w m ((y : Int) + d.1) ((x : Int) + d.2)) acc) 0

/-- cv2.erode with one iteration: pixelwise minimum over the structuring
element, border values not contributing. -/
def erode (h w : Nat) (ker : List (Int × Int)) (m : Nat → Nat → Nat) :
    Nat → Nat → Nat :=
  fun y x =>
    ker.foldr (fun d acc => min (tap255 h w m ((y : Int) + d.1) ((x : Int) + d.2)) acc) 255

/-- One step of the cv2 borderInterpolate loop for BORDER_REFLECT_101. -/
def reflStep (n p : Int) : Int :=
  if p < 0 then -p else if n ≤ p then 2 * (n - 1) - p else p

/-- cv2 borderInterpolate(p, n, BORDER_REFLECT_101): index reflection without
repeating the edge pixel; a length-1 axis resolves to index 0.  Three steps
of the reflection loop suffice for all indices at distance at most 2 from
the grid, the only ones a (5,5) kernel reads. -/
def refl101 (n : Nat) (p : Int) : Int :=
  if n = 1 then 0 else reflStep n (reflStep n (reflStep n p))

/-- Fixed-point coefficients of the 5-tap Gaussian kernel cv2 uses for uint8
data with sigma 0: the binomial kernel [1,4,6,4,1]/16 scaled by 256. -/
def gcoef (i : Nat) : Nat := [16, 64, 96, 64, 16].getD i 0

/-- cv2.GaussianBlur(mask, (5,5), 0) on a uint8 raster: separable fixed-point
convolution with BORDER_REFLECT_101, final shift by 16 bits with rounding. -/
def gaussianBlur (h w : Nat) (m : Nat → Nat → Nat) : Nat → Nat → Nat :=
  fun y x =>
    ((Finset.range 5).sum (fun i =>
      (Finset.range 5).sum (fun j =>
        gcoef i * gcoef j *
          m (refl101 h ((y : Int) + (i : Int) - 2)).toNat
            (refl101 w ((x : Int) + (j : Int) - 2)).toNat)) + 32768) / 65536

/-- A region rectangle (x1, y1, x2, y2), as the tuples of masking.py. -/
abbrev Rect := Nat × Nat × Nat × Nat

/-- The garment_regions table of create_garment_region_mask, with the float
products int(width * f), int(height * f) written as exact rational floors. -/
def garment_regions (w h : Nat) : List (String × Rect) :=
  [("hat", (0, 0, w, 15 * h / 100)),
   ("glasses", (25 * w / 100, 15 * h / 100, 75 * w / 100, 25 * h / 100)),
   ("shirt", (0, 15 * h / 100, w, 60 * h / 100)),
   ("t-shirt", (0, 15 * h / 100, w, 50 * h / 100)),
   ("blouse", (0, 15 * h / 100, w, 55 * h / 100)),
   ("dress", (0, 15 * h / 100, w, 85 * h / 100)),
   ("jacket", (0, 15 * h / 100, w, 65 * h / 100)),
   ("pants", (0, 45 * h / 100, w, 90 * h / 100)),
   ("jeans", (0, 45 * h / 100, w, 90 * h / 100)),
   ("skirt", (0, 40 * h / 100, w, 75 * h / 100)),
   ("shoes", (0, 85 * h / 100, w, h)),
   ("scarf", (20 * w / 100, 20 * h / 100, 80 * w / 100, 35 * h / 100))]

/-- Keys of garment_regions. -/
def regionKeys : List String :=
  ["hat", "glasses", "shirt", "t-shirt", "blouse", "dress", "jacket", "pants",
   "jeans", "skirt", "shoes", "scarf"]

/-- Python str.lower, modelled characterwise (every table key is ASCII). -/
def strLower (s : String) : String := ⟨s.data.map Char.toLower⟩

/-- garment_regions.get(garment_type.lower(), (0, 0, width, height)). -/
def regionRect (w h : Nat) (garment_type : String) : Rect :=
  ((garment_regions w h).lookup (strLower garment_type)).getD (0, 0, w, h)

/-- cv2.rectangle(mask, (x1,y1), (x2,y2), 255, -1) on a zero mask: the solid
inclusive-corner rectangle (the draw is clipped to the image; the embedding
only ever reads pixels inside the grid). -/
def rectPix (r : Rect) : Nat → Nat → Nat :=
  fun y x =>
    if r.2.1 ≤ y ∧ y ≤ r.2.2.2 ∧ r.1 ≤ x ∧ x ≤ r.2.2.1 then 255 else 0

/-- SemanticMasker.create_garment_region_mask: look up the region for the
lowercased garment type (full frame when absent), fill it solid, dilate by
the 15-ellipse, and soften with the (5,5) Gaussian blur.  The unused
position argument of the source is omitted. -/
def create_garment_region_mask (image : PImage) (garment_type : String) : Mask :=
  let h := image.height
  let w := image.width
  { height := h
    width := w
    pix := gaussianBlur h w (dilate h w kernel15 (rectPix (regionRect w h garment_type))) }

/-- cv2.morphologyEx(mask, cv2.MORPH_CLOSE, kernel, iterations=2): dilate
twice then erode twice with the (5,5) ellipse. -/
def morph_close (h w : Nat) (m : Nat → Nat → Nat) : Nat → Nat → Nat :=
  erode h w kernel5 (erode h w kernel5 (dilate h w kernel5 (dilate h w kernel5 m)))

/-- cv2.morphologyEx(mask, cv2.MORPH_OPEN, kernel, iterations=2): erode
twice then dilate twice with the (5,5) ellipse. -/
def morph_open (h w : Nat) (m : Nat → Nat → Nat) : Nat → Nat → Nat :=
  dilate h w kernel5 (dilate h w kernel5 (erode h w kernel5 (erode h w kernel5 m)))

/-- SemanticMasker.refine_mask with the default iterations=2: morphological
closing (fill holes) followed by morphological opening (remove noise). -/
def refine_mask (h w : Nat) (m : Nat → Nat → Nat) : Nat → Nat → Nat :=
  morph_open h w (morph_close h w m)

/-- Number of nonzero pixels of a mask, np.count_nonzero. -/
def countNonzero (m : Mask) : Nat :=
  ((Finset.range m.height ×ˢ Finset.range m.width).filter
    (fun p => m.pix p.1 p.2 ≠ 0)).card

/-- Result record of get_mask_statistics. -/
structure MaskStats where
  total_pixels : Nat
  masked_pixels : Nat
  coverage_percentage : ℚ
  deriving Repr

/-- SemanticMasker.get_mask_statistics: a pure function of the mask (the
source reads the array and builds a fresh dict; the float division is
modelled by exact rational division). -/
def get_mask_statistics (m : Mask) : MaskStats :=
  { total_pixels := m.height * m.width
    masked_pixels := countNonzero m
    coverage_percentage :=
      ((countNonzero m : ℚ) / ((m.height * m.width : Nat) : ℚ)) * 100 }

/-- The garment_prompts table of InferencePipeline._generate_prompt. -/
def garment_prompts : List (String × String) :=
  [("hat", "wearing a stylish hat"),
   ("cap", "wearing a cap"),
   ("glasses", "wearing glasses"),
   ("sunglasses", "wearing sunglasses"),
   ("shirt", "wearing a button-up shirt"),
   ("t-shirt", "wearing a t-shirt"),
   ("blouse", "wearing a blouse"),
   ("dress", "wearing a dress"),
   ("jacket", "wearing a jacket"),
   ("coat", "wearing a coat"),
   ("sweater", "wearing a sweater"),
   ("hoodie", "wearing a hoodie"),
   ("pants", "wearing pants"),
   ("jeans", "wearing jeans"),
   ("skirt", "wearing a skirt"),
   ("shoes", "wearing shoes"),
   ("scarf", "wearing a scarf"),
   ("tie", "wearing a tie")]

/-- Keys of garment_prompts. -/
def promptKeys : List String :=
  ["hat", "cap", "glasses", "sunglasses", "shirt", "t-shirt", "blouse",
   "dress", "jacket", "coat", "sweater", "hoodie", "pants", "jeans", "skirt",
   "shoes", "scarf", "tie"]

/-- The clause garment_prompts.get(garment_type.lower(), f"wearing {garment_type}"). -/
def garmentDetail (garment_type : String) : String :=
  (garment_prompts.lookup (strLower garment_type)).getD ("wearing " ++ garment_type)

/-- The fixed stylistic suffix of the generated prompt. -/
def promptSuffix : String :=
  ", photorealistic, high quality, professional photography, natural lighting, detailed fabric texture"

/-- InferencePipeline._generate_prompt.  The base_prompt parameter is part of
the source signature but never read by the body. -/
def generate_prompt (garment_type _base_prompt : String) : String :=
  let garment_detail := garmentDetail garment_type
  "A person " ++ garment_detail ++ promptSuffix

/-- Pillow round_aspect: pick between floor and ceil of a rational target by
the supplied key, floor winning ties, and never drop below 1. -/
def round_aspect (q : ℚ) (key : Nat → ℚ) : Nat :=
  max (if key ⌊q⌋.toNat ≤ key ⌈q⌉.toNat then ⌊q⌋.toNat else ⌈q⌉.toNat) 1

/-- Size computation of PIL Image.thumbnail(size): no change when the image
already fits in the box, otherwise scale down preserving aspect ratio with
Pillow's rounding.  Float arithmetic is modelled by exact rationals. -/
def thumbnailSize (img : PImage) (mx my : Nat) : PImage :=
  if img.width ≤ mx ∧ img.height ≤ my then img
  else
    let aspect : ℚ := (img.width : ℚ) / (img.height : ℚ)
    if aspect ≤ (mx : ℚ) / (my : ℚ) then
      { width := round_aspect ((my : ℚ) * aspect) (fun n => |aspect - (n : ℚ) / (my : ℚ)|)
        height := my }
    else
      { width := mx
        height := round_aspect ((mx : ℚ) / aspect)
          (fun n => if n = 0 then 0 else |aspect - (mx : ℚ) / (n : ℚ)|) }

/-- ImageProcessor.resize_image: image.thumbnail(MAX_IMAGE_SIZE); return image.
PIL thumbnail resizes the image object in place and the function returns that
same object, so the call yields the pair (returned image, state of the input
image after the call), and the two components are one and the same. -/
def resize_image (image : PImage) : PImage × PImage :=
  let r := thumbnailSize image MAX_IMAGE_SIZE.1 MAX_IMAGE_SIZE.2
  (r, r)

/-- Result of ClothingClassifier.classify, per the adapter contract: a label
and a confidence in [0,1] (the ranked alternatives are not read by the
orchestrator and are omitted). -/
structure Classification where
  garment_type : String
  confidence : ℚ
  deriving Repr

/-- Result record of InferencePipeline.generate_try_on.  The wall-clock
processing_time field is not modelled. -/
structure TryOnRes where
  result_image : PImage
  garment_detected : String
  confidence : ℚ
  mask : Mask

/-- InferencePipeline.generate_try_on, parameterized by the two opaque model
adapters: the zero-shot classifier and the inpainting pipeline (which may
fail, modelled by Except; the source's try/except re-raises every exception
unchanged).  Stages: resize both images, classify the garment only when the
caller did not supply a type (confidence 1.0 otherwise), build the region
mask and refine it, build the prompt, inpaint, package the result. -/
def generate_try_on
    (classify : PImage → Classification)
    (inpaint : PImage → Mask → String → Except String PImage)
    (person_image garment_image : PImage)
    (garment_type : Option String) : Except String TryOnRes :=
  let person := (resize_image person_image).1
  let garment := (resize_image garment_image).1
  let resolved : String × ℚ :=
    match garment_type with
    | none => let c := classify garment; (c.garment_type, c.confidence)
    | some t => (t, 1)
  let mask0 := create_garment_region_mask person resolved.1
  let mask : Mask :=
    { height := mask0.height, width := mask0.width
      pix := refine_mask mask0.height mask0.width mask0.pix }
  let prompt := generate_prompt resolved.1 "person wearing high-quality clothing"
  match inpaint person mask prompt with
  | Except.ok img =>
      Except.ok
        { result_image := img
          garment_detected := resolved.1
          confidence := resolved.2
          mask := mask }
  | Except.error e => Except.error e

/-- The optional garment type for batch item i: Python evaluates
garment_types[i] if garment_types else None, so a missing or empty list
yields None, and a present but too-short list raises IndexError (modelled
as the whole-batch failure value none of the caller). -/
def batchItemType (garment_types : Option (List String)) (i : Nat) :
    Option (Option String) :=
  match garment_types with
  | none => some none
  | some l => if l = [] then some none else (l.get? i).map some

/-- The loop of InferencePipeline.batch_try_on over the zipped image pairs:
each item's generate_try_on result or captured error is appended; an
IndexError from garment_types[i] (outside the try block) aborts everything. -/
def batchLoop
    (classify : PImage → Classification)
    (inpaint : PImage → Mask → String → Except String PImage)
    (garment_types : Option (List String)) :
    Nat → List (PImage × PImage) → Option (List (Except String TryOnRes))
  | _, [] => some []
  | i, pg :: rest =>
      match batchItemType garment_types i with
      | none => none
      | some t =>
          let r := generate_try_on classify inpaint pg.1 pg.2 t
          (batchLoop classify inpaint garment_types (i + 1) rest).map
            (fun tail => r :: tail)

/-- InferencePipeline.batch_try_on: iterate the index-aligned pairs, capture
per-item failures as error records, never abort later items on an item
failure.  The outer Option models the one uncaught error path, an
IndexError from a too-short garment_types list. -/
def batch_try_on
    (classify : PImage → Classification)
    (inpaint : PImage → Mask → String → Except String PImage)
    (person_images garment_images : List PImage)
    (garment_types : Option (List String)) :
    Option (List (Except String TryOnRes)) :=
  batchLoop classify inpaint garment_types 0 (person_images.zip garment_images)

/-- Substring test on character lists: some split exhibits pat inside s. -/
def hasSubstr (pat s : List Char) : Bool :=
  (List.range (s.length + 1)).any (fun i => decide ((s.drop i).take pat.length = pat))

/-! Generic facts about the fold shapes of dilate and erode. -/

theorem le_foldr_max {α : Type} (l : List α) (f : α → Nat) (a : α) (ha : a ∈ l) :
    f a ≤ l.foldr (fun d acc => max (f d) acc) 0 := by
  induction l with
  | nil => cases ha
  | cons b l ih =>
    rcases List.mem_cons.mp ha with rfl | ha'
    · exact le_max_left _ _
    · exact le_trans (ih ha') (le_max_right _ _)

theorem foldr_max_le {α : Type} (l : List α) (f : α → Nat) (c : Nat)
    (h : ∀ a ∈ l, f a ≤ c) : l.foldr (fun d acc => max (f d) acc) 0 ≤ c := by
  induction l with
  | nil => exact Nat.zero_le c
  | cons b l ih =>
    exact max_le (h b (List.mem_cons_self b l))
      (ih (fun a ha => h a (List.mem_cons_of_mem b ha)))

theorem foldr_max_ne_zero {α : Type} (l : List α) (f : α → Nat)
    (h : l.foldr (fun d acc => max (f d) acc) 0 ≠ 0) : ∃ a ∈ l, f a ≠ 0 := by
  by_contra hall
  push_neg at hall
  exact h (Nat.le_zero.mp (foldr_max_le l f 0 (fun a ha => Nat.le_zero.mpr (hall a ha))))

theorem foldr_min_le {α : Type} (l : List α) (f : α → Nat) (a : α) (ha : a ∈ l) :
    l.foldr (fun d acc => min (f d) acc) 255 ≤ f a := by
  induction l with
  | nil => cases ha
  | cons b l ih =>
    rcases List.mem_cons.mp ha with rfl | ha'
    · exact min_le_left _ _
    · exact le_trans (min_le_right _ _) (ih ha')

theorem le_foldr_min {α : Type} (l : List α) (f : α → Nat) (c : Nat)
    (h : ∀ a ∈ l, c ≤ f a) (h255 : c ≤ 255) :
    c ≤ l.foldr (fun d acc => min (f d) acc) 255 := by
  induction l with
  | nil => exact h255
  | cons b l ih =>
    exact le_min (h b (List.mem_cons_self b l))
      (ih (fun a ha => h a (List.mem_cons_of_mem b ha)))

theorem foldr_min_le_255 {α : Type} (l : List α) (f : α → Nat) :
    l.foldr (fun d acc => min (f d) acc) 255 ≤ 255 := by
  induction l with
  | nil => exact le_refl 255
  | cons b l ih => exact le_trans (min_le_right _ _) ih

theorem foldr_max_mono {α : Type} (l : List α) (f g : α → Nat)
    (h : ∀ a ∈ l, f a ≤ g a) :
    l.foldr (fun d acc => max (f d) acc) 0 ≤ l.foldr (fun d acc => max (g d) acc) 0 := by
  induction l with
  | nil => exact le_refl 0
  | cons b l ih =>
    exact max_le_max (h b (List.mem_cons_self b l))
      (ih (fun a ha => h a (List.mem_cons_of_mem b ha)))

theorem foldr_min_mono {α : Type} (l : List α) (f g : α → Nat)
    (h : ∀ a ∈ l, f a ≤ g a) :
    l.foldr (fun d acc => min (f d) acc) 255 ≤ l.foldr (fun d acc => min (g d) acc) 255 := by
  induction l with
  | nil => exact le_refl 255
  | cons b l ih =>
    exact min_le_min (h b (List.mem_cons_self b l))
      (ih (fun a ha => h a (List.mem_cons_of_mem b ha)))

/-! Concrete facts about the two structuring elements. -/

theorem kernel5_symm : ∀ d ∈ kernel5, (-d.1, -d.2) ∈ kernel5 := by decide

theorem kernel5_anchor : ((0, 0) : Int × Int) ∈ kernel5 := by decide

theorem kernel15_anchor : ((0, 0) : Int × Int) ∈ kernel15 := by decide

theorem kernel15_bounds : ∀ d ∈ kernel15, -7 ≤ d.1 ∧ d.1 ≤ 7 := by decide

/-! Facts about BORDER_REFLECT_101 index reflection. -/

theorem refl101_self (h : Nat) (y : Nat) (hy : y < h) : refl101 h y = y := by
  unfold refl101 reflStep
  split_ifs <;> omega

theorem refl101_mem (h : Nat) (p : Int) (h1 : 1 ≤ h) (h2 : -2 ≤ p)
    (h3 : p ≤ (h : Int) + 1) : 0 ≤ refl101 h p ∧ refl101 h p < h := by
  unfold refl101 reflStep
  split_ifs <;> omega

theorem refl101_row_bound (h B : Nat) (y : Nat) (p : Int) (hy : y < h)
    (h2 : (y : Int) - 2 ≤ p) (h3 : p ≤ (y : Int) + 2)
    (hB : (refl101 h p).toNat ≤ B) : y ≤ B + 2 := by
  unfold refl101 reflStep at hB
  split_ifs at hB <;> omega

/-! Pointwise bounds and monotonicity of the morphological operations. -/

theorem tap0_le_255 (h w : Nat) (m : Nat → Nat → Nat)
    (hb : ∀ y x, y < h → x < w → m y x ≤ 255) (y x : Int) :
    tap0 h w m y x ≤ 255 := by
  unfold tap0
  split_ifs with hin
  · exact hb _ _ (by omega) (by omega)
  · exact Nat.zero_le 255

theorem dilate_le_255 (h w : Nat) (ker : List (Int × Int)) (m : Nat → Nat → Nat)
    (hb : ∀ y x, y < h → x < w → m y x ≤ 255) (y x : Nat) :
    dilate h w ker m y x ≤ 255 :=
  foldr_max_le _ _ _ (fun _ _ => tap0_le_255 h w m hb _ _)

theorem erode_le_255 (h w : Nat) (ker : List (Int × Int)) (m : Nat → Nat → Nat)
    (y x : Nat) : erode h w ker m y x ≤ 255 :=
  foldr_min_le_255 _ _

theorem le_dilate_anchor (h w : Nat) (ker : List (Int × Int))
    (hanchor : ((0, 0) : Int × Int) ∈ ker) (m : Nat → Nat → Nat)
    (y x : Nat) (hy : y < h) (hx : x < w) : m y x ≤ dilate h w ker m y x := by
  have := le_foldr_max ker
    (fun d => tap0 h w m ((y : Int) + d.1) ((x : Int) + d.2)) (0, 0) hanchor
  simpa [tap0, hy, hx] using this

theorem dilate_mono (h w : Nat) (ker : List (Int × Int)) (m m' : Nat → Nat → Nat)
    (hm : ∀ y x, y < h → x < w → m y x ≤ m' y x) (y x : Nat) :
    dilate h w ker m y x ≤ dilate h w ker m' y x := by
  apply foldr_max_mono
  intro d _
  unfold tap0
  split_ifs with hin
  · exact hm _ _ (by omega) (by omega)
  · exact le_refl 0

theorem erode_mono (h w : Nat) (ker : List (Int × Int)) (m m' : Nat → Nat → Nat)
    (hm : ∀ y x, y < h → x < w → m y x ≤ m' y x) (y x : Nat) :
    erode h w ker m y x ≤ erode h w ker m' y x := by
  apply foldr_min_mono
  intro d _
  unfold tap255
  split_ifs with hin
  · exact hm _ _ (by omega) (by omega)
  · exact le_refl 255

/-- Adjunction, unit side: a pixel survives a dilation followed by an
erosion, for a symmetric kernel and a uint8-bounded mask. -/
theorem le_erode_dilate (h w : Nat) (m : Nat → Nat → Nat)
    (hb : ∀ y x, y < h → x < w → m y x ≤ 255)
    (y x : Nat) (hy : y < h) (hx : x < w) :
    m y x ≤ erode h w kernel5 (dilate h w kernel5 m) y x := by
  apply le_foldr_min _ _ _ _ (hb y x hy hx)
  intro d hd
  unfold tap255
  split_ifs with hin
  · have hd' := kernel5_symm d hd
    have hmem := le_foldr_max kernel5
      (fun d' => tap0 h w m
        (((((y : Int) + d.1).toNat : Nat) : Int) + d'.1)
        (((((x : Int) + d.2).toNat : Nat) : Int) + d'.2)) (-d.1, -d.2) hd'
    refine le_trans (le_of_eq ?_) hmem
    show m y x =
      tap0 h w m ((((y : Int) + d.1).toNat : Int) + -d.1)
        ((((x : Int) + d.2).toNat : Int) + -d.2)
    have e1 : ((((y : Int) + d.1).toNat : Nat) : Int) = (y : Int) + d.1 :=
      Int.toNat_of_nonneg hin.1
    have e2 : ((((x : Int) + d.2).toNat : Nat) : Int) = (x : Int) + d.2 :=
      Int.toNat_of_nonneg hin.2.2.1
    rw [e1, e2]
    have hy' : (y : Int) + d.1 + -d.1 = (y : Int) := by ring
    have hx' : (x : Int) + d.2 + -d.2 = (x : Int) := by ring
    rw [hy', hx']
    unfold tap0
    rw [if_pos ⟨by omega, by omega, by omega, by omega⟩]
    simp
  · exact hb y x hy hx

/-- Adjunction, counit side: an erosion followed by a dilation never grows
a pixel, for a symmetric kernel. -/
theorem dilate_erode_le (h w : Nat) (m : Nat → Nat → Nat)
    (y x : Nat) (hy : y < h) (hx : x < w) :
    dilate h w kernel5 (erode h w kernel5 m) y x ≤ m y x := by
  apply foldr_max_le
  intro d hd
  unfold tap0
  split_ifs with hin
  · have hd' := kernel5_symm d hd
    have hmem := foldr_min_le kernel5
      (fun d' => tap255 h w m
        (((((y : Int) + d.1).toNat : Nat) : Int) + d'.1)
        (((((x : Int) + d.2).toNat : Nat) : Int) + d'.2)) (-d.1, -d.2) hd'
    refine le_trans hmem (le_of_eq ?_)
    show tap255 h w m ((((y : Int) + d.1).toNat : Int) + -d.1)
        ((((x : Int) + d.2).toNat : Int) + -d.2) = m y x
    have e1 : ((((y : Int) + d.1).toNat : Nat) : Int) = (y : Int) + d.1 :=
      Int.toNat_of_nonneg hin.1
    have e2 : ((((x : Int) + d.2).toNat : Nat) : Int) = (x : Int) + d.2 :=
      Int.toNat_of_nonneg hin.2.2.1
    rw [e1, e2]
    have hy' : (y : Int) + d.1 + -d.1 = (y : Int) := by ring
    have hx' : (x : Int) + d.2 + -d.2 = (x : Int) := by ring
    rw [hy', hx']
    unfold tap255
    rw [if_pos ⟨by omega, by omega, by omega, by omega⟩]
    simp
  · exact Nat.zero_le _

/-! The closing and the opening performed by refine_mask are a closure and
an interior operator on uint8 masks over the grid: extensivity and
anti-extensivity follow from the dilate/erode adjunction, and their
idempotence makes refine_mask itself idempotent. -/

theorem morph_close_le_255 (h w : Nat) (m : Nat → Nat → Nat) (y x : Nat) :
    morph_close h w m y x ≤ 255 :=
  erode_le_255 _ _ _ _ _ _

theorem morph_open_le_255 (h w : Nat) (m : Nat → Nat → Nat) (y x : Nat) :
    morph_open h w m y x ≤ 255 := by
  unfold morph_open
  apply dilate_le_255
  intro y x _ _
  apply dilate_le_255
  intro y x _ _
  exact erode_le_255 _ _ _ _ _ _

theorem morph_close_mono (h w : Nat) (m m' : Nat → Nat → Nat)
    (hm : ∀ y x, y < h → x < w → m y x ≤ m' y x) (y x : Nat) :
    morph_close h w m y x ≤ morph_close h w m' y x := by
  unfold morph_close
  apply erode_mono
  intro y x _ _
  apply erode_mono
  intro y x _ _
  apply dilate_mono
  intro y x _ _
  exact dilate_mono h w kernel5 m m' hm y x

theorem morph_open_mono (h w : Nat) (m m' : Nat → Nat → Nat)
    (hm : ∀ y x, y < h → x < w → m y x ≤ m' y x) (y x : Nat) :
    morph_open h w m y x ≤ morph_open h w m' y x := by
  unfold morph_open
  apply dilate_mono
  intro y x _ _
  apply dilate_mono
  intro y x _ _
  apply erode_mono
  intro y x _ _
  exact erode_mono h w kernel5 m m' hm y x

theorem le_morph_close (h w : Nat) (m : Nat → Nat → Nat)
    (hb : ∀ y x, y < h → x < w → m y x ≤ 255)
    (y x : Nat) (hy : y < h) (hx : x < w) : m y x ≤ morph_close h w m y x := by
  unfold morph_close
  have step1 := le_erode_dilate h w m hb y x hy hx
  have hbD : ∀ y x, y < h → x < w → dilate h w kernel5 m y x ≤ 255 :=
    fun y x _ _ => dilate_le_255 h w kernel5 m hb y x
  have step2 := erode_mono h w kernel5 (dilate h w kernel5 m)
    (erode h w kernel5 (dilate h w kernel5 (dilate h w kernel5 m)))
    (fun y x hy hx => le_erode_dilate h w (dilate h w kernel5 m) hbD y x hy hx) y x
  exact le_trans step1 step2

theorem morph_open_le (h w : Nat) (m : Nat → Nat → Nat)
    (y x : Nat) (hy : y < h) (hx : x < w) : morph_open h w m y x ≤ m y x := by
  unfold morph_open
  have step1 := dilate_mono h w kernel5
    (dilate h w kernel5 (erode h w kernel5 (erode h w kernel5 m)))
    (erode h w kernel5 m)
    (fun y x hy hx => dilate_erode_le h w (erode h w kernel5 m) y x hy hx) y x
  have step2 := dilate_erode_le h w m y x hy hx
  exact le_trans step1 step2

theorem morph_close_idem (h w : Nat) (m : Nat → Nat → Nat)
    (y x : Nat) (hy : y < h) (hx : x < w) :
    morph_close h w (morph_close h w m) y x = morph_close h w m y x := by
  apply le_antisymm
  · have key : ∀ y x, y < h → x < w →
        morph_open h w (dilate h w kernel5 (dilate h w kernel5 m)) y x ≤
          dilate h w kernel5 (dilate h w kernel5 m) y x :=
      fun y x hy hx =>
        morph_open_le h w (dilate h w kernel5 (dilate h w kernel5 m)) y x hy hx
    have := erode_mono h w kernel5
      (erode h w kernel5 (morph_open h w (dilate h w kernel5 (dilate h w kernel5 m))))
      (erode h w kernel5 (dilate h w kernel5 (dilate h w kernel5 m)))
      (fun y x _ _ => erode_mono h w kernel5 _ _ key y x) y x
    exact this
  · exact le_morph_close h w (morph_close h w m)
      (fun y x _ _ => morph_close_le_255 h w m y x) y x hy hx

theorem morph_open_idem (h w : Nat) (m : Nat → Nat → Nat)
    (y x : Nat) (hy : y < h) (hx : x < w) :
    morph_open h w (morph_open h w m) y x = morph_open h w m y x := by
  apply le_antisymm
  · exact morph_open_le h w (morph_open h w m) y x hy hx
  · have hbE : ∀ y x, y < h → x < w →
        erode h w kernel5 (erode h w kernel5 m) y x ≤ 255 :=
      fun y x _ _ => erode_le_255 _ _ _ _ _ _
    have key : ∀ y x, y < h → x < w →
        erode h w kernel5 (erode h w kernel5 m) y x ≤
          morph_close h w (erode h w kernel5 (erode h w kernel5 m)) y x :=
      fun y x hy hx =>
        le_morph_close h w (erode h w kernel5 (erode h w kernel5 m)) hbE y x hy hx
    have := dilate_mono h w kernel5
      (dilate h w kernel5 (erode h w kernel5 (erode h w kernel5 m)))
      (dilate h w kernel5 (morph_close h w (erode h w kernel5 (erode h w kernel5 m))))
      (fun y x _ _ => dilate_mono h w kernel5 _ _ key y x) y x
    exact this

theorem refine_mask_idem (h w : Nat) (m : Nat → Nat → Nat)
    (y x : Nat) (hy : y < h) (hx : x < w) :
    refine_mask h w (refine_mask h w m) y x = refine_mask h w m y x := by
  unfold refine_mask
  apply le_antisymm
  · have step1 : ∀ y x, y < h → x < w →
        morph_close h w (morph_open h w (morph_close h w m)) y x ≤
          morph_close h w m y x := by
      intro y x hy hx
      have a1 := morph_close_mono h w
        (morph_open h w (morph_close h w m)) (morph_close h w m)
        (fun y x hy hx => morph_open_le h w (morph_close h w m) y x hy hx) y x
      have a2 := le_of_eq (morph_close_idem h w m y x hy hx)
      exact le_trans a1 a2
    exact morph_open_mono h w _ _ step1 y x
  · have step1 : ∀ y x, y < h → x < w →
        morph_open h w (morph_close h w m) y x ≤
          morph_close h w (morph_open h w (morph_close h w m)) y x :=
      fun y x hy hx =>
        le_morph_close h w (morph_open h w (morph_close h w m))
          (fun y x _ _ => morph_open_le_255 h w (morph_close h w m) y x) y x hy hx
    have a1 := morph_open_mono h w _ _ step1 y x
    have a2 := le_of_eq (morph_open_idem h w (morph_close h w m) y x hy hx).symm
    exact le_trans a2 a1

/-! Dictionary lookups. -/

theorem lookup_mem {α β : Type} [BEq α] [LawfulBEq α] (l : List (α × β)) (k : α)
    (v : β) (hl : l.lookup k = some v) : (k, v) ∈ l := by
  induction l with
  | nil => simp [List.lookup] at hl
  | cons a l ih =>
    obtain ⟨a1, b1⟩ := a
    by_cases hk : k == a1
    · simp [List.lookup, hk] at hl
      simp [eq_of_beq hk, hl]
    · simp only [List.lookup, hk] at hl
      exact List.mem_cons_of_mem _ (ih hl)

theorem garment_regions_keys (w h : Nat) :
    (garment_regions w h).map Prod.fst = regionKeys := rfl

theorem garment_prompts_keys : garment_prompts.map Prod.fst = promptKeys := rfl

theorem region_lookup_eq_none (w h : Nat) (k : String) (hk : k ∉ regionKeys) :
    (garment_regions w h).lookup k = none := by
  cases hl : (garment_regions w h).lookup k with
  | none => rfl
  | some v =>
    exact absurd
      (garment_regions_keys w h ▸
        List.mem_map.mpr ⟨(k, v), lookup_mem _ _ _ hl, rfl⟩) hk

theorem prompt_lookup_eq_none (k : String) (hk : k ∉ promptKeys) :
    garment_prompts.lookup k = none := by
  cases hl : garment_prompts.lookup k with
  | none => rfl
  | some v =>
    exact absurd
      (garment_prompts_keys ▸
        List.mem_map.mpr ⟨(k, v), lookup_mem _ _ _ hl, rfl⟩) hk

/-! The looked-up rectangle always has its top-left corner inside the grid
and is inclusively nonempty. -/

/-- The corner conditions every region rectangle satisfies on a nonempty
image: top-left corner strictly inside the grid, corners in order. -/
def rectOK (w h : Nat) (r : Rect) : Prop :=
  r.2.1 < h ∧ r.1 < w ∧ r.2.1 ≤ r.2.2.2 ∧ r.1 ≤ r.2.2.1

theorem regionRect_ok (w h : Nat) (hw : 1 ≤ w) (hh : 1 ≤ h) (g : String) :
    rectOK w h (regionRect w h g) := by
  unfold rectOK regionRect
  cases hl : (garment_regions w h).lookup (strLower g) with
  | none =>
    simp only [Option.getD_none]
    refine ⟨?_, ?_, ?_, ?_⟩ <;> omega
  | some v =>
    have hv : (strLower g, v) ∈ garment_regions w h :=
      lookup_mem (garment_regions w h) (strLower g) v hl
    simp only [garment_regions, List.mem_cons, List.not_mem_nil, or_false,
      Prod.mk.injEq] at hv
    rcases hv with ⟨_, rfl⟩ | ⟨_, rfl⟩ | ⟨_, rfl⟩ | ⟨_, rfl⟩ | ⟨_, rfl⟩ |
      ⟨_, rfl⟩ | ⟨_, rfl⟩ | ⟨_, rfl⟩ | ⟨_, rfl⟩ | ⟨_, rfl⟩ | ⟨_, rfl⟩ | ⟨_, rfl⟩ <;>
      simp only [Option.getD_some] <;>
      refine ⟨?_, ?_, ?_, ?_⟩ <;> omega

/-! Support and positivity of the Gaussian blur. -/

theorem gaussianBlur_eq_zero_extract (h w : Nat) (m : Nat → Nat → Nat) (y x : Nat)
    (hne : gaussianBlur h w m y x ≠ 0) :
    ∃ i ∈ Finset.range 5, ∃ j ∈ Finset.range 5,
      m (refl101 h ((y : Int) + (i : Int) - 2)).toNat
        (refl101 w ((x : Int) + (j : Int) - 2)).toNat ≠ 0 := by
  by_contra hall
  push_neg at hall
  apply hne
  unfold gaussianBlur
  have hz : ((Finset.range 5).sum (fun i =>
      (Finset.range 5).sum (fun j =>
        gcoef i * gcoef j *
          m (refl101 h ((y : Int) + (i : Int) - 2)).toNat
            (refl101 w ((x : Int) + (j : Int) - 2)).toNat))) = 0 := by
    apply Finset.sum_eq_zero
    intro i hi
    apply Finset.sum_eq_zero
    intro j hj
    rw [hall i hi j hj, Nat.mul_zero]
  rw [hz]

theorem double_sum_le (f : Nat → Nat → Nat) (i j : Nat)
    (hi : i ∈ Finset.range 5) (hj : j ∈ Finset.range 5) :
    f i j ≤ (Finset.range 5).sum (fun a => (Finset.range 5).sum (fun b => f a b)) :=
  le_trans (Finset.single_le_sum (f := fun b => f i b) (fun _ _ => Nat.zero_le _) hj)
    (Finset.single_le_sum (f := fun a => (Finset.range 5).sum (fun b => f a b))
      (fun _ _ => Nat.zero_le _) hi)

theorem gaussianBlur_pos (h w : Nat) (m : Nat → Nat → Nat) (y x : Nat)
    (hy : y < h) (hx : x < w) (hm : 255 ≤ m y x) :
    1 ≤ gaussianBlur h w m y x := by
  unfold gaussianBlur
  have t1 : (refl101 h ((y : Int) + ((2 : Nat) : Int) - 2)).toNat = y := by
    have e : (y : Int) + ((2 : Nat) : Int) - 2 = (y : Int) := by push_cast; ring
    rw [e, refl101_self h y hy]
    simp
  have t2 : (refl101 w ((x : Int) + ((2 : Nat) : Int) - 2)).toNat = x := by
    have e : (x : Int) + ((2 : Nat) : Int) - 2 = (x : Int) := by push_cast; ring
    rw [e, refl101_self w x hx]
    simp
  have hterm := double_sum_le (fun i j => gcoef i * gcoef j *
      m (refl101 h ((y : Int) + (i : Int) - 2)).toNat
        (refl101 w ((x : Int) + (j : Int) - 2)).toNat) 2 2 (by decide) (by decide)
  beta_reduce at hterm
  rw [t1, t2] at hterm
  have hg : gcoef 2 * gcoef 2 = 9216 := rfl
  rw [hg] at hterm
  have hbig : 9216 * 255 ≤ 9216 * m y x := Nat.mul_le_mul_left 9216 hm
  omega

theorem gaussianBlur_const255 (h w : Nat) (m : Nat → Nat → Nat)
    (hm : ∀ y x, y < h → x < w → m y x = 255) (hw : 1 ≤ w) (hh : 1 ≤ h)
    (y x : Nat) (hy : y < h) (hx : x < w) : gaussianBlur h w m y x = 255 := by
  unfold gaussianBlur
  have htap : ∀ i ∈ Finset.range 5, ∀ j ∈ Finset.range 5,
      m (refl101 h ((y : Int) + (i : Int) - 2)).toNat
        (refl101 w ((x : Int) + (j : Int) - 2)).toNat = 255 := by
    intro i hi j hj
    have hi5 : i < 5 := Finset.mem_range.mp hi
    have hj5 : j < 5 := Finset.mem_range.mp hj
    have hry := refl101_mem h ((y : Int) + (i : Int) - 2) hh (by omega) (by omega)
    have hrx := refl101_mem w ((x : Int) + (j : Int) - 2) hw (by omega) (by omega)
    exact hm _ _ (by omega) (by omega)
  have hsum : ((Finset.range 5).sum (fun i =>
      (Finset.range 5).sum (fun j =>
        gcoef i * gcoef j *
          m (refl101 h ((y : Int) + (i : Int) - 2)).toNat
            (refl101 w ((x : Int) + (j : Int) - 2)).toNat))) =
      ((Finset.range 5).sum (fun i =>
        (Finset.range 5).sum (fun j => gcoef i * gcoef j * 255))) := by
    apply Finset.sum_congr rfl
    intro i hi
    apply Finset.sum_congr rfl
    intro j hj
    rw [htap i hi j hj]
  rw [hsum]
  decide

/-! Support bounds through the dilation. -/

theorem dilate_extract (h w : Nat) (ker : List (Int × Int)) (m : Nat → Nat → Nat)
    (y x : Nat) (hne : dilate h w ker m y x ≠ 0) :
    ∃ d ∈ ker,
      (0 ≤ (y : Int) + d.1 ∧ (y : Int) + d.1 < (h : Int) ∧
        0 ≤ (x : Int) + d.2 ∧ (x : Int) + d.2 < (w : Int)) ∧
      m ((y : Int) + d.1).toNat ((x : Int) + d.2).toNat ≠ 0 := by
  obtain ⟨d, hd, hne'⟩ := foldr_max_ne_zero ker
    (fun d => tap0 h w m ((y : Int) + d.1) ((x : Int) + d.2)) hne
  refine ⟨d, hd, ?_⟩
  unfold tap0 at hne'
  split_ifs at hne' with hin
  · exact ⟨hin, hne'⟩
  · exact absurd rfl hne'

theorem rectPix_row_zero (r : Rect) (y x : Nat) (hy : r.2.2.2 < y) :
    rectPix r y x = 0 := by
  unfold rectPix
  rw [if_neg]
  intro hc
  omega

theorem dilate_rect_zero_rows (h w : Nat) (r : Rect) (y x : Nat)
    (hy : r.2.2.2 + 7 < y) : dilate h w kernel15 (rectPix r) y x = 0 := by
  unfold dilate
  apply Nat.le_zero.mp
  apply foldr_max_le
  intro d hd
  have hb := kernel15_bounds d hd
  unfold tap0
  split_ifs with hin
  · exact le_of_eq (rectPix_row_zero r _ _ (by omega))
  · exact le_refl 0

theorem gaussianBlur_row_support (h w B : Nat) (m : Nat → Nat → Nat)
    (hm : ∀ y x, y < h → x < w → B < y → m y x = 0)
    (y x : Nat) (hy : y < h) (hx : x < w)
    (hne : gaussianBlur h w m y x ≠ 0) : y ≤ B + 2 := by
  obtain ⟨i, hi, j, hj, hne'⟩ := gaussianBlur_eq_zero_extract h w m y x hne
  have hi5 : i < 5 := Finset.mem_range.mp hi
  have hj5 : j < 5 := Finset.mem_range.mp hj
  have hh1 : 1 ≤ h := by omega
  have hw1 : 1 ≤ w := by omega
  have hry := refl101_mem h ((y : Int) + (i : Int) - 2) hh1 (by omega) (by omega)
  have hrx := refl101_mem w ((x : Int) + (j : Int) - 2) hw1 (by omega) (by omega)
  by_cases hrow : B < (refl101 h ((y : Int) + (i : Int) - 2)).toNat
  · exact absurd (hm _ _ (by omega) (by omega) hrow) hne'
  · exact refl101_row_bound h B y ((y : Int) + (i : Int) - 2) hy (by omega) (by omega)
      (by omega)

/-! Nonemptiness of every region mask. -/

theorem create_mask_pos (img : PImage) (g : String)
    (hw : 1 ≤ img.width) (hh : 1 ≤ img.height) :
    0 < countNonzero (create_garment_region_mask img g) := by
  obtain ⟨hy1, hx1, hy12, hx12⟩ := regionRect_ok img.width img.height hw hh g
  have hfill : rectPix (regionRect img.width img.height g)
      (regionRect img.width img.height g).2.1 (regionRect img.width img.height g).1 = 255 := by
    unfold rectPix
    rw [if_pos ⟨le_refl _, hy12, le_refl _, hx12⟩]
  have hdil : 255 ≤ dilate img.height img.width kernel15
      (rectPix (regionRect img.width img.height g))
      (regionRect img.width img.height g).2.1 (regionRect img.width img.height g).1 := by
    have := le_dilate_anchor img.height img.width kernel15 kernel15_anchor
      (rectPix (regionRect img.width img.height g))
      (regionRect img.width img.height g).2.1 (regionRect img.width img.height g).1 hy1 hx1
    rw [hfill] at this
    exact this
  have hpix : 1 ≤ gaussianBlur img.height img.width
      (dilate img.height img.width kernel15 (rectPix (regionRect img.width img.height g)))
      (regionRect img.width img.height g).2.1 (regionRect img.width img.height g).1 :=
    gaussianBlur_pos _ _ _ _ _ hy1 hx1 hdil
  apply Finset.card_pos.mpr
  refine ⟨((regionRect img.width img.height g).2.1, (regionRect img.width img.height g).1), ?_⟩
  rw [Finset.mem_filter]
  constructor
  · rw [Finset.mem_product]
    exact ⟨Finset.mem_range.mpr hy1, Finset.mem_range.mpr hx1⟩
  · show (create_garment_region_mask img g).pix
      (regionRect img.width img.height g).2.1 (regionRect img.width img.height g).1 ≠ 0
    have h1 : 1 ≤ (create_garment_region_mask img g).pix
        (regionRect img.width img.height g).2.1 (regionRect img.width img.height g).1 := hpix
    omega

/-- C1: for every image of width and height at least 1, the region table maps
hat to rows 0 through 15% of the height over the full width, pants to rows
45% through 90% over the full width, and glasses to columns 25% through 75%
and rows 15% through 25%; and every nonzero pixel of the hat mask lies in
the top-15% row band widened by at most the dilation kernel size plus the
blur kernel half-width. -/
theorem C1_region_table_and_hat_support (w h : Nat) (_hw : 1 ≤ w) (_hh : 1 ≤ h) :
    regionRect w h "hat" = (0, 0, w, 15 * h / 100) ∧
    regionRect w h "pants" = (0, 45 * h / 100, w, 90 * h / 100) ∧
    regionRect w h "glasses" =
      (25 * w / 100, 15 * h / 100, 75 * w / 100, 25 * h / 100) ∧
    ∀ y x : Nat, y < h → x < w →
      (create_garment_region_mask ⟨w, h⟩ "hat").pix y x ≠ 0 →
      y ≤ 15 * h / 100 + MASK_DILATION_KERNEL + MASK_BLUR_SIZE / 2 := by
  refine ⟨rfl, rfl, rfl, ?_⟩
  intro y x hy hx hne
  have erect : (regionRect w h "hat").2.2.2 = 15 * h / 100 := rfl
  have hsupp : ∀ y' x', y' < h → x' < w → (15 * h / 100 + 7) < y' →
      dilate h w kernel15 (rectPix (regionRect w h "hat")) y' x' = 0 := by
    intro y' x' _ _ hy'
    exact dilate_rect_zero_rows h w (regionRect w h "hat") y' x' (by omega)
  have hne' : gaussianBlur h w
      (dilate h w kernel15 (rectPix (regionRect w h "hat"))) y x ≠ 0 := hne
  have hbound := gaussianBlur_row_support h w (15 * h / 100 + 7) _ hsupp y x hy hx hne'
  show y ≤ 15 * h / 100 + 15 + 5 / 2
  omega

/-- C1 witness at a concrete 20-by-20 image. -/
theorem C1_region_table_and_hat_support_witness :
    regionRect 20 20 "hat" = (0, 0, 20, 15 * 20 / 100) ∧
    regionRect 20 20 "pants" = (0, 45 * 20 / 100, 20, 90 * 20 / 100) ∧
    regionRect 20 20 "glasses" =
      (25 * 20 / 100, 15 * 20 / 100, 75 * 20 / 100, 25 * 20 / 100) ∧
    ∀ y x : Nat, y < 20 → x < 20 →
      (create_garment_region_mask ⟨20, 20⟩ "hat").pix y x ≠ 0 →
      y ≤ 15 * 20 / 100 + MASK_DILATION_KERNEL + MASK_BLUR_SIZE / 2 :=
  C1_region_table_and_hat_support 20 20 (by norm_num) (by norm_num)

/-- C2: for every supported garment category and nonempty image, the region
mask has the image's dimensions and strictly more than zero nonzero pixels. -/
theorem C2_regionMask_dims_nonzero (g : String) (_hg : g ∈ GARMENT_TYPES)
    (img : PImage) (hw : 1 ≤ img.width) (hh : 1 ≤ img.height) :
    (create_garment_region_mask img g).height = img.height ∧
    (create_garment_region_mask img g).width = img.width ∧
    0 < countNonzero (create_garment_region_mask img g) :=
  ⟨rfl, rfl, create_mask_pos img g hw hh⟩

/-- C2 witness at category hat on a 4-by-4 image. -/
theorem C2_regionMask_dims_nonzero_witness :
    (create_garment_region_mask ⟨4, 4⟩ "hat").height = 4 ∧
    (create_garment_region_mask ⟨4, 4⟩ "hat").width = 4 ∧
    0 < countNonzero (create_garment_region_mask ⟨4, 4⟩ "hat") :=
  C2_regionMask_dims_nonzero "hat" (by decide) ⟨4, 4⟩ (by norm_num) (by norm_num)

/-- C7: refine_mask with the default iteration count is idempotent on a
solid filled rectangle mask: a second application changes no pixel of the
grid, so the mask is a fixed point after one refinement round. -/
theorem C7_refineMask_idempotent (h w : Nat) (r : Rect) (y x : Nat)
    (hy : y < h) (hx : x < w) :
    refine_mask h w (refine_mask h w (rectPix r)) y x =
      refine_mask h w (rectPix r) y x :=
  refine_mask_idem h w (rectPix r) y x hy hx

/-- C7 witness on a 3-by-3 grid with a 2-by-2 rectangle. -/
theorem C7_refineMask_idempotent_witness :
    refine_mask 3 3 (refine_mask 3 3 (rectPix (0, 0, 1, 1))) 1 1 =
      refine_mask 3 3 (rectPix (0, 0, 1, 1)) 1 1 :=
  C7_refineMask_idempotent 3 3 (0, 0, 1, 1) 1 1 (by norm_num) (by norm_num)

/-! Substring facts and full-frame coverage. -/

theorem str_data_append (a b : String) : (a ++ b).data = a.data ++ b.data := by
  cases a
  cases b
  rfl

theorem hasSubstr_of_split (pat a b : List Char) :
    hasSubstr pat (a ++ pat ++ b) = true := by
  unfold hasSubstr
  rw [List.any_eq_true]
  refine ⟨a.length, ?_, ?_⟩
  · rw [List.mem_range]
    rw [List.append_assoc, List.length_append]
    omega
  · rw [List.append_assoc, List.drop_left, decide_eq_true_eq]
    exact List.take_left pat b

theorem rectPix_le_255 (r : Rect) (y x : Nat) : rectPix r y x ≤ 255 := by
  unfold rectPix
  split_ifs <;> omega

theorem coverage_full (m : Mask) (hne : 0 < m.height * m.width)
    (hall : ∀ y x, y < m.height → x < m.width → m.pix y x ≠ 0) :
    (get_mask_statistics m).coverage_percentage = 100 := by
  unfold get_mask_statistics countNonzero
  have hfil : ((Finset.range m.height ×ˢ Finset.range m.width).filter
      (fun p => m.pix p.1 p.2 ≠ 0)) = Finset.range m.height ×ˢ Finset.range m.width := by
    apply Finset.filter_true_of_mem
    intro p hp
    rw [Finset.mem_product, Finset.mem_range, Finset.mem_range] at hp
    exact hall p.1 p.2 hp.1 hp.2
  rw [hfil, Finset.card_product, Finset.card_range, Finset.card_range]
  rw [div_self (Nat.cast_ne_zero.mpr (by omega))]
  norm_num

theorem fullframe_mask_const255 (img : PImage) (cat : String)
    (hc : strLower cat ∉ regionKeys) (hw : 1 ≤ img.width) (hh : 1 ≤ img.height)
    (y x : Nat) (hy : y < img.height) (hx : x < img.width) :
    (create_garment_region_mask img cat).pix y x = 255 := by
  have hrect : regionRect img.width img.height cat =
      (0, 0, img.width, img.height) := by
    unfold regionRect
    rw [region_lookup_eq_none img.width img.height (strLower cat) hc]
    rfl
  show gaussianBlur img.height img.width
    (dilate img.height img.width kernel15 (rectPix (regionRect img.width img.height cat)))
    y x = 255
  rw [hrect]
  have hfull : ∀ y x, y < img.height → x < img.width →
      rectPix ((0, 0, img.width, img.height) : Rect) y x = 255 := by
    intro y x hy hx
    unfold rectPix
    rw [if_pos]
    exact ⟨Nat.zero_le _, show y ≤ img.height by omega, Nat.zero_le _,
      show x ≤ img.width by omega⟩
  have hdil : ∀ y x, y < img.height → x < img.width →
      dilate img.height img.width kernel15
        (rectPix ((0, 0, img.width, img.height) : Rect)) y x = 255 := by
    intro y x hy hx
    apply le_antisymm
    · exact dilate_le_255 _ _ _ _ (fun y x _ _ => rectPix_le_255 _ y x) y x
    · have := le_dilate_anchor img.height img.width kernel15 kernel15_anchor
        (rectPix ((0, 0, img.width, img.height) : Rect)) y x hy hx
      rw [hfull y x hy hx] at this
      exact this
  exact gaussianBlur_const255 img.height img.width _ hdil hw hh y x hy hx

/-- C3 (amended): the region lookup and the prompt lookup are performed on
the lowercased category, so the documented fallbacks apply exactly to the
category strings whose lowercase form is absent from the tables: for those,
the region mask is the full frame (every grid pixel 255, coverage 100%),
and the prompt contains "wearing " followed by the category verbatim. -/
theorem C3_unknown_category_fallback :
    (∀ (cat : String) (img : PImage), strLower cat ∉ regionKeys →
      1 ≤ img.width → 1 ≤ img.height →
      regionRect img.width img.height cat = (0, 0, img.width, img.height) ∧
      (∀ y x, y < img.height → x < img.width →
        (create_garment_region_mask img cat).pix y x = 255) ∧
      (get_mask_statistics
        (create_garment_region_mask img cat)).coverage_percentage = 100) ∧
    (∀ (cat b : String), strLower cat ∉ promptKeys →
      hasSubstr ("wearing " ++ cat).data (generate_prompt cat b).data = true) := by
  constructor
  · intro cat img hc hw hh
    refine ⟨?_, fullframe_mask_const255 img cat hc hw hh, ?_⟩
    · unfold regionRect
      rw [region_lookup_eq_none img.width img.height (strLower cat) hc]
      rfl
    · apply coverage_full
      · show 0 < img.height * img.width
        positivity
      · intro y x hy hx
        rw [fullframe_mask_const255 img cat hc hw hh y x hy hx]
        omega
  · intro cat b hc
    have hdetail : garmentDetail cat = "wearing " ++ cat := by
      unfold garmentDetail
      rw [prompt_lookup_eq_none (strLower cat) hc]
      rfl
    have hprompt : generate_prompt cat b =
        "A person " ++ ("wearing " ++ cat) ++ promptSuffix := by
      unfold generate_prompt
      rw [hdetail]
    rw [hprompt, str_data_append, str_data_append]
    exact hasSubstr_of_split ("wearing " ++ cat).data "A person ".data promptSuffix.data

/-- C3 witness at the unknown category "zzz" on a 2-by-2 image. -/
theorem C3_unknown_category_fallback_witness :
    (regionRect 2 2 "zzz" = (0, 0, 2, 2) ∧
      (∀ y x, y < 2 → x < 2 →
        (create_garment_region_mask ⟨2, 2⟩ "zzz").pix y x = 255) ∧
      (get_mask_statistics
        (create_garment_region_mask ⟨2, 2⟩ "zzz")).coverage_percentage = 100) ∧
    hasSubstr ("wearing " ++ "zzz").data (generate_prompt "zzz" "base").data = true :=
  ⟨C3_unknown_category_fallback.1 "zzz" ⟨2, 2⟩ (by decide) (by norm_num) (by norm_num),
   C3_unknown_category_fallback.2 "zzz" "base" (by decide)⟩

/-- C3 counterexample: "HAT" is absent from both tables as a string, yet the
lowercasing lookup selects the hat band, not the full frame, and the prompt
is the stylish-hat clause, which does not contain "wearing HAT" verbatim. -/
theorem C3_unknown_category_fallback_cex :
    "HAT" ∉ regionKeys ∧
    regionRect 20 20 "HAT" = (0, 0, 20, 3) ∧
    regionRect 20 20 "HAT" ≠ (0, 0, 20, 20) ∧
    "HAT" ∉ promptKeys ∧
    generate_prompt "HAT" "person wearing high-quality clothing" =
      "A person wearing a stylish hat, photorealistic, high quality, professional photography, natural lighting, detailed fabric texture" ∧
    hasSubstr "wearing HAT".data
      (generate_prompt "HAT" "person wearing high-quality clothing").data = false := by
  refine ⟨by decide, by decide, by decide, by decide, by decide, by decide⟩

/-- C4: the generated prompt is a pure function of the garment category:
"A person " plus the category clause plus the fixed stylistic suffix, the
clause coming from the table for known categories (for example hoodie) and
being "wearing " plus the category otherwise, with the suffix identical for
every input and the unused base-prompt argument never affecting the result. -/
theorem C4_buildPrompt_structure :
    (∀ g b, generate_prompt g b = "A person " ++ garmentDetail g ++ promptSuffix) ∧
    (∀ g b b', generate_prompt g b = generate_prompt g b') ∧
    garmentDetail "hoodie" = "wearing a hoodie" ∧
    (∀ g, garment_prompts.lookup (strLower g) = none →
      garmentDetail g = "wearing " ++ g) ∧
    promptSuffix = ", photorealistic, high quality, professional photography, natural lighting, detailed fabric texture" := by
  refine ⟨fun g b => rfl, fun g b b' => rfl, by decide, ?_, rfl⟩
  intro g hg
  unfold garmentDetail
  rw [hg]
  rfl

/-- C4 witness at the unknown category "zzzz". -/
theorem C4_buildPrompt_structure_witness :
    generate_prompt "zzzz" "b" = "A person " ++ garmentDetail "zzzz" ++ promptSuffix ∧
    generate_prompt "zzzz" "b" = generate_prompt "zzzz" "c" ∧
    garmentDetail "zzzz" = "wearing " ++ "zzzz" :=
  ⟨C4_buildPrompt_structure.1 "zzzz" "b",
   C4_buildPrompt_structure.2.1 "zzzz" "b" "c",
   C4_buildPrompt_structure.2.2.2.1 "zzzz" (by decide)⟩

/-! Orchestration-level claims. -/

/-- A classifier stub reporting full confidence, allowed by the adapter
contract (confidence in [0,1]). -/
def classifyFull : PImage → Classification := fun _ => ⟨"shirt", 1⟩

/-- An inpainting stub that always succeeds and echoes the person image. -/
def inpaintOk : PImage → Mask → String → Except String PImage :=
  fun p _ _ => Except.ok p

/-- An inpainting stub that fails exactly on the pants prompt. -/
def inpaintBoom : PImage → Mask → String → Except String PImage :=
  fun p _ prompt =>
    if prompt = generate_prompt "pants" "person wearing high-quality clothing"
    then Except.error "boom" else Except.ok p

/-- A throwaway default try-on result. -/
def trDefault : TryOnRes := ⟨⟨0, 0⟩, "", 0, ⟨0, 0, fun _ _ => 0⟩⟩

/-- C5 (amended): confidence is exactly 1.0 whenever the caller supplies a
category (classification is skipped and the supplied category is used), and
otherwise both category and confidence come from the classifier's result;
confidence 1.0 therefore follows from a supplied category but can also occur
without one, when the classifier itself reports exactly 1.0. -/
theorem C5_confidence_resolution :
    (∀ (classify : PImage → Classification)
        (inpaint : PImage → Mask → String → Except String PImage)
        (p g : PImage) (t : String) (r : TryOnRes),
      generate_try_on classify inpaint p g (some t) = Except.ok r →
        r.confidence = 1 ∧ r.garment_detected = t) ∧
    (∀ (classify : PImage → Classification)
        (inpaint : PImage → Mask → String → Except String PImage)
        (p g : PImage) (r : TryOnRes),
      generate_try_on classify inpaint p g none = Except.ok r →
        r.confidence = (classify (resize_image g).1).confidence ∧
        r.garment_detected = (classify (resize_image g).1).garment_type) := by
  constructor
  · intro classify inpaint p g t r hok
    simp only [generate_try_on] at hok
    split at hok
    · rename_i img heq
      injection hok with hok
      subst hok
      exact ⟨rfl, rfl⟩
    · exact Except.noConfusion hok
  · intro classify inpaint p g r hok
    simp only [generate_try_on] at hok
    split at hok
    · rename_i img heq
      injection hok with hok
      subst hok
      exact ⟨rfl, rfl⟩
    · exact Except.noConfusion hok

/-- C5 witness: a caller-supplied category yields confidence 1.0 and the
supplied label. -/
theorem C5_confidence_resolution_witness :
    ((generate_try_on classifyFull inpaintOk ⟨8, 8⟩ ⟨8, 8⟩
        (some "hat")).toOption.getD trDefault).confidence = 1 ∧
    ((generate_try_on classifyFull inpaintOk ⟨8, 8⟩ ⟨8, 8⟩
        (some "hat")).toOption.getD trDefault).garment_detected = "hat" :=
  C5_confidence_resolution.1 classifyFull inpaintOk ⟨8, 8⟩ ⟨8, 8⟩ "hat" _ rfl

/-- C5 counterexample: with no caller-supplied category and a classifier
reporting confidence exactly 1.0, the result confidence is 1.0, so equality
with 1.0 does not characterize a caller-supplied category. -/
theorem C5_confidence_resolution_cex :
    ¬ (∀ (classify : PImage → Classification)
        (inpaint : PImage → Mask → String → Except String PImage)
        (p g : PImage) (gt : Option String) (r : TryOnRes),
        generate_try_on classify inpaint p g gt = Except.ok r →
          (r.confidence = 1 ↔ gt.isSome)) := by
  intro hcl
  have h := hcl classifyFull inpaintOk ⟨8, 8⟩ ⟨8, 8⟩ none _ rfl
  exact absurd (h.mp rfl) (by decide)

/-- C6: batch_try_on isolates per-item failures: with three index-aligned
items where the second fails and the first and third succeed, the returned
sequence has length three, its first and third entries are the very results
of processing those items alone, and the second entry is the error record;
the failure aborts nothing. -/
theorem C6_batch_isolation
    (classify : PImage → Classification)
    (inpaint : PImage → Mask → String → Except String PImage)
    (p1 p2 p3 g1 g2 g3 : PImage) (c1 c2 c3 : String)
    (r1 r3 : TryOnRes) (e : String)
    (h1 : generate_try_on classify inpaint p1 g1 (some c1) = Except.ok r1)
    (h2 : generate_try_on classify inpaint p2 g2 (some c2) = Except.error e)
    (h3 : generate_try_on classify inpaint p3 g3 (some c3) = Except.ok r3) :
    batch_try_on classify inpaint [p1, p2, p3] [g1, g2, g3] (some [c1, c2, c3]) =
      some [Except.ok r1, Except.error e, Except.ok r3] ∧
    batch_try_on classify inpaint [p1] [g1] (some [c1]) = some [Except.ok r1] ∧
    batch_try_on classify inpaint [p3] [g3] (some [c3]) = some [Except.ok r3] := by
  unfold batch_try_on
  refine ⟨?_, ?_, ?_⟩ <;>
    simp [batchLoop, batchItemType, h1, h2, h3]

/-- C6 witness: a concrete three-item batch in which only the middle item's
generation fails. -/
theorem C6_batch_isolation_witness :
    batch_try_on classifyFull inpaintBoom [⟨8, 8⟩, ⟨9, 9⟩, ⟨10, 10⟩]
        [⟨8, 8⟩, ⟨9, 9⟩, ⟨10, 10⟩] (some ["hat", "pants", "shoes"]) =
      some [Except.ok ((generate_try_on classifyFull inpaintBoom ⟨8, 8⟩ ⟨8, 8⟩
          (some "hat")).toOption.getD trDefault),
        Except.error "boom",
        Except.ok ((generate_try_on classifyFull inpaintBoom ⟨10, 10⟩ ⟨10, 10⟩
          (some "shoes")).toOption.getD trDefault)] :=
  (C6_batch_isolation classifyFull inpaintBoom ⟨8, 8⟩ ⟨9, 9⟩ ⟨10, 10⟩
    ⟨8, 8⟩ ⟨9, 9⟩ ⟨10, 10⟩ "hat" "pants" "shoes" _ _ "boom" rfl rfl rfl).1

/-- C8: for every nonempty mask, the statistics are the raw pixel totals, a
coverage percentage within [0,100], and coverage zero exactly when no grid
pixel is nonzero; the operation is a pure function of the mask. -/
theorem C8_maskStatistics (m : Mask) (hne : 0 < m.height * m.width) :
    (get_mask_statistics m).total_pixels = m.height * m.width ∧
    (get_mask_statistics m).masked_pixels = countNonzero m ∧
    0 ≤ (get_mask_statistics m).coverage_percentage ∧
    (get_mask_statistics m).coverage_percentage ≤ 100 ∧
    ((get_mask_statistics m).coverage_percentage = 0 ↔
      ∀ y x, y < m.height → x < m.width → m.pix y x = 0) := by
  have hcount_le : countNonzero m ≤ m.height * m.width := by
    unfold countNonzero
    calc ((Finset.range m.height ×ˢ Finset.range m.width).filter
          (fun p => m.pix p.1 p.2 ≠ 0)).card
        ≤ (Finset.range m.height ×ˢ Finset.range m.width).card :=
          Finset.card_filter_le _ _
      _ = m.height * m.width := by
          rw [Finset.card_product, Finset.card_range, Finset.card_range]
  have htotQ : (0 : ℚ) < ((m.height * m.width : Nat) : ℚ) := by exact_mod_cast hne
  refine ⟨rfl, rfl, ?_, ?_, ?_⟩
  · unfold get_mask_statistics
    positivity
  · unfold get_mask_statistics
    have hle1 : (countNonzero m : ℚ) / ((m.height * m.width : Nat) : ℚ) ≤ 1 :=
      div_le_one_of_le₀ (by exact_mod_cast hcount_le) (le_of_lt htotQ)
    calc (countNonzero m : ℚ) / ((m.height * m.width : Nat) : ℚ) * 100
        ≤ 1 * 100 := mul_le_mul_of_nonneg_right hle1 (by norm_num)
      _ = 100 := one_mul 100
  · constructor
    · intro hcov
      have hc0 : countNonzero m = 0 := by
        unfold get_mask_statistics at hcov
        rcases mul_eq_zero.mp hcov with hd | h100
        · rcases div_eq_zero_iff.mp hd with hc | ht
          · exact_mod_cast hc
          · exact absurd ht (ne_of_gt htotQ)
        · norm_num at h100
      intro y x hy hx
      by_contra hnz
      have hmem : (y, x) ∈ (Finset.range m.height ×ˢ Finset.range m.width).filter
          (fun p => m.pix p.1 p.2 ≠ 0) := by
        rw [Finset.mem_filter, Finset.mem_product]
        exact ⟨⟨Finset.mem_range.mpr hy, Finset.mem_range.mpr hx⟩, hnz⟩
      have hpos : 0 < countNonzero m := Finset.card_pos.mpr ⟨_, hmem⟩
      omega
    · intro hall
      have hc0 : countNonzero m = 0 := by
        unfold countNonzero
        rw [Finset.card_eq_zero, Finset.filter_eq_empty_iff]
        intro p hp
        rw [Finset.mem_product, Finset.mem_range, Finset.mem_range] at hp
        simp [hall p.1 p.2 hp.1 hp.2]
      unfold get_mask_statistics
      rw [hc0]
      norm_num

/-- C8 witness on a concrete 2-by-2 mask with a single nonzero pixel. -/
theorem C8_maskStatistics_witness :
    (get_mask_statistics ⟨2, 2, fun y x => if y = 0 ∧ x = 0 then 5 else 0⟩).total_pixels = 2 * 2 ∧
    (get_mask_statistics ⟨2, 2, fun y x => if y = 0 ∧ x = 0 then 5 else 0⟩).masked_pixels =
      countNonzero ⟨2, 2, fun y x => if y = 0 ∧ x = 0 then 5 else 0⟩ ∧
    0 ≤ (get_mask_statistics ⟨2, 2, fun y x => if y = 0 ∧ x = 0 then 5 else 0⟩).coverage_percentage ∧
    (get_mask_statistics ⟨2, 2, fun y x => if y = 0 ∧ x = 0 then 5 else 0⟩).coverage_percentage ≤ 100 ∧
    ((get_mask_statistics ⟨2, 2, fun y x => if y = 0 ∧ x = 0 then 5 else 0⟩).coverage_percentage = 0 ↔
      ∀ y x, y < 2 → x < 2 →
        (if y = 0 ∧ x = 0 then 5 else 0) = 0) :=
  C8_maskStatistics ⟨2, 2, fun y x => if y = 0 ∧ x = 0 then 5 else 0⟩ (by norm_num)

/-- C9 (amended): resize_image hands back the very image object it was
given: PIL thumbnail resizes in place, so the returned image and the input's
post-call state coincide; and the input's dimensions are unchanged exactly
when it already fits within MAX_IMAGE_SIZE: thumbnail never upscales, and it
always shrinks an image that exceeds the bound. -/
theorem C9_resize_inplace (img : PImage) :
    (resize_image img).1 = (resize_image img).2 ∧
    ((resize_image img).2 = img ↔ img.width ≤ 768 ∧ img.height ≤ 1024) := by
  refine ⟨rfl, ?_, ?_⟩
  · intro heq
    by_contra hne
    have heq' : thumbnailSize img MAX_IMAGE_SIZE.1 MAX_IMAGE_SIZE.2 = img := heq
    simp only [thumbnailSize, MAX_IMAGE_SIZE] at heq'
    rw [if_neg hne] at heq'
    split_ifs at heq' with hasp
    · have hh : (1024 : Nat) = img.height := congrArg PImage.height heq'
      rw [← hh] at hasp
      have hw : img.width ≤ 768 := by
        rw [div_le_div_iff₀ (by positivity) (by norm_num)] at hasp
        push_cast at hasp
        have hq : (img.width : ℚ) ≤ 768 := by linarith
        exact_mod_cast hq
      exact hne ⟨hw, by omega⟩
    · have hw : (768 : Nat) = img.width := congrArg PImage.width heq'
      push_neg at hasp
      rcases Nat.eq_zero_or_pos img.height with h0 | hpos
      · rw [h0] at hasp
        push_cast at hasp
        rw [div_zero] at hasp
        norm_num at hasp
      · have hh : img.height ≤ 1024 := by
          rw [← hw] at hasp
          rw [div_lt_div_iff₀ (by norm_num) (by positivity)] at hasp
          push_cast at hasp
          have hq : (img.height : ℚ) < 1024 := by linarith
          have : img.height < 1024 := by exact_mod_cast hq
          omega
        exact hne ⟨by omega, hh⟩
  · intro hfits
    show thumbnailSize img MAX_IMAGE_SIZE.1 MAX_IMAGE_SIZE.2 = img
    unfold thumbnailSize
    rw [if_pos]
    exact hfits

/-- C9 witness: a small image is returned unchanged, and the unchanged
result conversely certifies that the image fits the bound. -/
theorem C9_resize_inplace_witness :
    (resize_image ⟨500, 600⟩).1 = (resize_image ⟨500, 600⟩).2 ∧
    (resize_image ⟨500, 600⟩).2 = (⟨500, 600⟩ : PImage) ∧
    (500 ≤ 768 ∧ 600 ≤ 1024) :=
  ⟨(C9_resize_inplace ⟨500, 600⟩).1,
   (C9_resize_inplace ⟨500, 600⟩).2.mpr ⟨by norm_num, by norm_num⟩,
   (C9_resize_inplace ⟨500, 600⟩).2.mp
     ((C9_resize_inplace ⟨500, 600⟩).2.mpr ⟨by norm_num, by norm_num⟩)⟩

/-- C9 counterexample: a 1536-by-2048 input is itself resized to 768-by-1024
by the call: the input image's dimensions change, and the returned image is
the same object as the mutated input, not a distinct new image. -/
theorem C9_resize_inplace_cex :
    (resize_image ⟨1536, 2048⟩).2 ≠ (⟨1536, 2048⟩ : PImage) ∧
    (resize_image ⟨1536, 2048⟩).2 = (⟨768, 1024⟩ : PImage) ∧
    (resize_image ⟨1536, 2048⟩).1 = (resize_image ⟨1536, 2048⟩).2 := by
  have key : (resize_image ⟨1536, 2048⟩).2 = (⟨768, 1024⟩ : PImage) := by
    show thumbnailSize ⟨1536, 2048⟩ MAX_IMAGE_SIZE.1 MAX_IMAGE_SIZE.2 = _
    unfold thumbnailSize round_aspect MAX_IMAGE_SIZE
    norm_num
    decide
  refine ⟨?_, key, rfl⟩
  rw [key]
  intro hc
  rw [PImage.mk.injEq] at hc
  norm_num at hc

/-- C10: cap, coat, sweater, hoodie, sunglasses and tie belong to
GARMENT_TYPES and to the prompt table, yet have no region-table entry, so
the region lookup silently falls back to the full-frame rectangle and the
produced mask is identical to the one for a completely unrecognized
category string. -/
theorem C10_missing_region_entries :
    ∀ c ∈ (["cap", "coat", "sweater", "hoodie", "sunglasses", "tie"] : List String),
      c ∈ GARMENT_TYPES ∧
      (garment_prompts.lookup c).isSome = true ∧
      c ∉ regionKeys ∧
      (∀ w h : Nat, regionRect w h c = (0, 0, w, h)) ∧
      (∀ (img : PImage) (s : String), strLower s ∉ regionKeys →
        create_garment_region_mask img c = create_garment_region_mask img s) := by
  intro c hc
  have hkey : strLower c ∉ regionKeys ∧ c ∈ GARMENT_TYPES ∧
      (garment_prompts.lookup c).isSome = true ∧ c ∉ regionKeys := by
    fin_cases hc <;> exact ⟨by decide, by decide, by decide, by decide⟩
  obtain ⟨hlow, hmem, hprompt, hnot⟩ := hkey
  refine ⟨hmem, hprompt, hnot, ?_, ?_⟩
  · intro w h
    unfold regionRect
    rw [region_lookup_eq_none w h (strLower c) hlow]
    rfl
  · intro img s hs
    simp only [create_garment_region_mask]
    have e1 : regionRect img.width img.height c = (0, 0, img.width, img.height) := by
      unfold regionRect
      rw [region_lookup_eq_none _ _ _ hlow]
      rfl
    have e2 : regionRect img.width img.height s = (0, 0, img.width, img.height) := by
      unfold regionRect
      rw [region_lookup_eq_none _ _ _ hs]
      rfl
    rw [e1, e2]

/-- C10 witness at category cap against the unrecognized string "bolt". -/
theorem C10_missing_region_entries_witness :
    "cap" ∈ GARMENT_TYPES ∧
    (garment_prompts.lookup "cap").isSome = true ∧
    "cap" ∉ regionKeys ∧
    regionRect 7 9 "cap" = (0, 0, 7, 9) ∧
    create_garment_region_mask ⟨7, 9⟩ "cap" = create_garment_region_mask ⟨7, 9⟩ "bolt" := by
  obtain ⟨h1, h2, h3, h4, h5⟩ := C10_missing_region_entries "cap" (by decide)
  exact ⟨h1, h2, h3, h4 7 9, h5 ⟨7, 9⟩ "bolt" (by decide)⟩

end VTO
